import Mathlib

/-!
# Verification of the Survivor gap-threshold signal engine

Shallow embedding of `survivor.py` (class `SurvivorStrategy`) and the
construction/initialization path (`__init__` / `_initialize_state`,
with `AngelBroker.fut_ltp` returning `0.0` on failure).

Prices and configuration values are modelled as rationals; Python's
`round(x)` / `round(x, 0)` (banker's rounding, round-half-to-even) is
modelled by `pyRound`, and `int(x)` (truncation toward zero) by `pyInt`.
Order placement outcome (`_place_order` returning an order id or `None`)
is modelled by a boolean oracle passed to each tick.
-/

namespace Survivor

/-- Python `round(x)` / `round(x, 0)`: round half to even (banker's rounding). -/
def pyRound (x : ℚ) : ℤ :=
  let f := ⌊x⌋
  let r := x - f
  if r < 1/2 then f
  else if 1/2 < r then f + 1
  else if f % 2 = 0 then f else f + 1

/-- Python `int(x)` on a float: truncation toward zero. -/
def pyInt (x : ℚ) : ℤ :=
  if 0 ≤ x then ⌊x⌋ else ⌈x⌉

/-- Side of an emitted trade signal (PE = put, CE = call). -/
inductive Side where
  | put : Side
  | call : Side
deriving DecidableEq, Repr

/-- The ephemeral trade signal produced by a triggered side: the strike,
the total lots and the contract symbol of the attempted sell order. -/
structure Signal where
  side : Side
  strike : ℤ
  lots : ℤ
  symbol : String
deriving DecidableEq, Repr

/-- The configuration attributes of `SurvivorStrategy` that the engine
reads after construction (injected by `__init__` from the config mapping). -/
structure Config where
  underlying : String
  expiry : String
  pe_gap : ℚ
  ce_gap : ℚ
  pe_quantity : ℤ
  ce_quantity : ℤ
  pe_symbol_gap : ℚ
  ce_symbol_gap : ℚ
  pe_reset_gap : ℚ
  ce_reset_gap : ℚ
  sell_multiplier_threshold : ℚ
deriving DecidableEq, Repr

/-- The mutable engine state of `SurvivorStrategy`. -/
structure State where
  nifty_pe_last_value : ℚ
  nifty_ce_last_value : ℚ
  pe_reset_gap_flag : Bool
  ce_reset_gap_flag : Bool
deriving DecidableEq, Repr

/-- `SurvivorStrategy._check_sell_multiplier_breach`. -/
def check_sell_multiplier_breach (cfg : Config) (sell_multiplier : ℤ) : Bool :=
  decide ((sell_multiplier : ℚ) > cfg.sell_multiplier_threshold)

/-- `SurvivorStrategy._find_closest_strike`: `int(round(target_strike / 50.0)) * 50`. -/
def find_closest_strike (target_strike : ℚ) : ℤ :=
  pyRound (target_strike / 50) * 50

/-- `SurvivorStrategy._handle_pe_trade`.  Returns the updated state and the
signal of the attempted order, if the trigger fired.  `orderOk` tells whether
`_place_order` returned an order id; only then is `pe_reset_gap_flag` set. -/
def handle_pe_trade (cfg : Config) (s : State) (current_price : ℚ) (orderOk : Bool) :
    State × Option Signal :=
  if current_price ≤ s.nifty_pe_last_value then (s, none)
  else
    let price_diff : ℚ := (pyRound (current_price - s.nifty_pe_last_value) : ℚ)
    if cfg.pe_gap < price_diff then
      let sell_multiplier : ℤ := pyInt (price_diff / cfg.pe_gap)
      if check_sell_multiplier_breach cfg sell_multiplier then (s, none)
      else
        let s1 : State :=
          { s with nifty_pe_last_value :=
              s.nifty_pe_last_value + cfg.pe_gap * sell_multiplier }
        let total_lots := sell_multiplier * cfg.pe_quantity
        let strike := find_closest_strike (current_price - cfg.pe_symbol_gap)
        let sig : Signal :=
          ⟨Side.put, strike, total_lots,
            cfg.underlying ++ cfg.expiry.toUpper ++ toString strike ++ "PE"⟩
        if orderOk then ({ s1 with pe_reset_gap_flag := true }, some sig)
        else (s1, some sig)
    else (s, none)

/-- `SurvivorStrategy._handle_ce_trade` (mirror image of the put side). -/
def handle_ce_trade (cfg : Config) (s : State) (current_price : ℚ) (orderOk : Bool) :
    State × Option Signal :=
  if current_price ≥ s.nifty_ce_last_value then (s, none)
  else
    let price_diff : ℚ := (pyRound (s.nifty_ce_last_value - current_price) : ℚ)
    if cfg.ce_gap < price_diff then
      let sell_multiplier : ℤ := pyInt (price_diff / cfg.ce_gap)
      if check_sell_multiplier_breach cfg sell_multiplier then (s, none)
      else
        let s1 : State :=
          { s with nifty_ce_last_value :=
              s.nifty_ce_last_value - cfg.ce_gap * sell_multiplier }
        let total_lots := sell_multiplier * cfg.ce_quantity
        let strike := find_closest_strike (current_price + cfg.ce_symbol_gap)
        let sig : Signal :=
          ⟨Side.call, strike, total_lots,
            cfg.underlying ++ cfg.expiry.toUpper ++ toString strike ++ "CE"⟩
        if orderOk then ({ s1 with ce_reset_gap_flag := true }, some sig)
        else (s1, some sig)
    else (s, none)

/-- First `if` block of `SurvivorStrategy._reset_reference_values` (PE side). -/
def reset_pe_branch (cfg : Config) (s : State) (current_price : ℚ) : State :=
  if s.pe_reset_gap_flag ∧ cfg.pe_reset_gap < s.nifty_pe_last_value - current_price then
    { s with nifty_pe_last_value := current_price + cfg.pe_reset_gap
             pe_reset_gap_flag := false }
  else s

/-- Second `if` block of `SurvivorStrategy._reset_reference_values` (CE side). -/
def reset_ce_branch (cfg : Config) (s : State) (current_price : ℚ) : State :=
  if s.ce_reset_gap_flag ∧ cfg.ce_reset_gap < current_price - s.nifty_ce_last_value then
    { s with nifty_ce_last_value := current_price - cfg.ce_reset_gap
             ce_reset_gap_flag := false }
  else s

/-- `SurvivorStrategy._reset_reference_values`: the PE branch then the CE branch. -/
def reset_reference_values (cfg : Config) (s : State) (current_price : ℚ) : State :=
  reset_ce_branch cfg (reset_pe_branch cfg s current_price) current_price

/-- `SurvivorStrategy.on_ticks_update`: PE check, CE check, reset pass.
`peOk` / `ceOk` are the order-placement outcomes for the (at most one)
PE resp. CE order attempted this tick. -/
def on_ticks_update (cfg : Config) (s : State) (current_price : ℚ)
    (peOk ceOk : Bool) : State × List Signal :=
  let r1 := handle_pe_trade cfg s current_price peOk
  let r2 := handle_ce_trade cfg r1.1 current_price ceOk
  (reset_reference_values cfg r2.1 current_price, r1.2.toList ++ r2.2.toList)

/-- The raw configuration mapping handed to `SurvivorStrategy.__init__`:
each recognized key may be present or absent (`__init__` injects whatever
keys the mapping holds via `setattr`, so absent keys are absent attributes);
`extra` holds unknown keys, which are set as attributes but never read. -/
structure RawConfig where
  underlying : Option String
  expiry : Option String
  pe_gap : Option ℚ
  ce_gap : Option ℚ
  pe_quantity : Option ℤ
  ce_quantity : Option ℤ
  pe_symbol_gap : Option ℚ
  ce_symbol_gap : Option ℚ
  pe_reset_gap : Option ℚ
  ce_reset_gap : Option ℚ
  sell_multiplier_threshold : Option ℚ
  pe_start_point : Option ℚ
  ce_start_point : Option ℚ
  extra : List (String × ℚ)
deriving DecidableEq, Repr

/-- `SurvivorStrategy.__init__` followed by `_initialize_state`, producing the
initial engine state.  `q1` and `q2` are the two quote fetches (`fut_ltp`
returns `0.0` on failure, and `_initialize_state` treats a falsy quote as
absent, retrying exactly once).  Accessing an attribute the config mapping
did not supply raises `AttributeError`; `__init__` reads `underlying` and
`expiry`, and `_initialize_state` reads `pe_start_point` / `ce_start_point`
after the quote is obtained.  The gap keys are not read at construction. -/
def construct_engine (c : RawConfig) (q1 q2 : ℚ) : Except String State :=
  match c.underlying with
  | none => .error "AttributeError: underlying"
  | some _ =>
  match c.expiry with
  | none => .error "AttributeError: expiry"
  | some _ =>
  let current_quote := if q1 ≠ 0 then q1 else q2
  if current_quote = 0 then
    .error "ConnectionError: Failed to initialize Nifty quote."
  else
    match c.pe_start_point with
    | none => .error "AttributeError: pe_start_point"
    | some ps =>
    match c.ce_start_point with
    | none => .error "AttributeError: ce_start_point"
    | some cs =>
      .ok { nifty_pe_last_value := if ps ≠ 0 then ps else current_quote
            nifty_ce_last_value := if cs ≠ 0 then cs else current_quote
            pe_reset_gap_flag := false
            ce_reset_gap_flag := false }

/-- One polled tick: the price sample and the two order outcomes. -/
structure Tick where
  price : ℚ
  peOk : Bool
  ceOk : Bool
deriving DecidableEq, Repr

/-- Run `on_ticks_update` over a sequence of ticks, collecting the signals. -/
def runTicks (cfg : Config) (s : State) : List Tick → State × List Signal
  | [] => (s, [])
  | t :: ts =>
      let r := on_ticks_update cfg s t.price t.peOk t.ceOk
      let rest := runTicks cfg r.1 ts
      (rest.1, r.2 ++ rest.2)

/-- The rounded price difference computed by `_handle_pe_trade`. -/
def peDiff (s : State) (p : ℚ) : ℚ :=
  (pyRound (p - s.nifty_pe_last_value) : ℚ)

/-- The sell multiplier computed by `_handle_pe_trade`. -/
def peMultiplier (cfg : Config) (s : State) (p : ℚ) : ℤ :=
  pyInt (peDiff s p / cfg.pe_gap)

/-- The rounded price difference computed by `_handle_ce_trade`. -/
def ceDiff (s : State) (p : ℚ) : ℚ :=
  (pyRound (s.nifty_ce_last_value - p) : ℚ)

/-- The sell multiplier computed by `_handle_ce_trade`. -/
def ceMultiplier (cfg : Config) (s : State) (p : ℚ) : ℤ :=
  pyInt (ceDiff s p / cfg.ce_gap)

/-- The PE reset branch fires during this tick's reset pass: evaluated on the
intermediate state left by both handlers, exactly as `on_ticks_update` does. -/
def putResetFires (cfg : Config) (s : State) (t : Tick) : Prop :=
  (handle_ce_trade cfg (handle_pe_trade cfg s t.price t.peOk).1 t.price
      t.ceOk).1.pe_reset_gap_flag = true
  ∧ cfg.pe_reset_gap <
      (handle_ce_trade cfg (handle_pe_trade cfg s t.price t.peOk).1 t.price
        t.ceOk).1.nifty_pe_last_value - t.price

/-- The CE reset branch fires during this tick's reset pass (the PE reset
branch never changes the call-side fields it reads). -/
def ceResetFires (cfg : Config) (s : State) (t : Tick) : Prop :=
  (handle_ce_trade cfg (handle_pe_trade cfg s t.price t.peOk).1 t.price
      t.ceOk).1.ce_reset_gap_flag = true
  ∧ cfg.ce_reset_gap < t.price -
      (handle_ce_trade cfg (handle_pe_trade cfg s t.price t.peOk).1 t.price
        t.ceOk).1.nifty_ce_last_value

/-- No PE reset fires anywhere along a run of ticks. -/
def noPutResetRun (cfg : Config) : State → List Tick → Prop
  | _, [] => True
  | s, t :: ts => ¬ putResetFires cfg s t ∧
      noPutResetRun cfg (on_ticks_update cfg s t.price t.peOk t.ceOk).1 ts

/-- No CE reset fires anywhere along a run of ticks. -/
def noCeResetRun (cfg : Config) : State → List Tick → Prop
  | _, [] => True
  | s, t :: ts => ¬ ceResetFires cfg s t ∧
      noCeResetRun cfg (on_ticks_update cfg s t.price t.peOk t.ceOk).1 ts

/-- Modelled from the spec: strike derivation with a configurable rounding
step, `strike = round(target / strikeRoundingStep) * strikeRoundingStep`
(round half to even, as the source's `round` does).  The source has no such
configuration knob — `_find_closest_strike` hardcodes 50 — so this
definition exists only to compare the spec's formula with the code. -/
def spec_strike (target step : ℚ) : ℚ :=
  (pyRound (target / step) : ℚ) * step

/-! ## Basic facts about the arithmetic primitives -/

lemma pyInt_eq_floor {x : ℚ} (h : 0 ≤ x) : pyInt x = ⌊x⌋ := by
  simp [pyInt, h]

lemma pyRound_le (x : ℚ) : (pyRound x : ℚ) ≤ x + 1/2 := by
  have hfl : (⌊x⌋ : ℚ) ≤ x := Int.floor_le x
  simp only [pyRound]
  split_ifs with h1 h2 h3 <;> push_cast <;> linarith

lemma le_pyRound (x : ℚ) : x - 1/2 ≤ (pyRound x : ℚ) := by
  have hfl : x < (⌊x⌋ : ℚ) + 1 := Int.lt_floor_add_one x
  simp only [pyRound]
  split_ifs with h1 h2 h3 <;> push_cast <;> linarith

lemma one_le_floor_div {g d : ℚ} (hg : 0 < g) (hd : g < d) : 1 ≤ ⌊d / g⌋ := by
  refine Int.le_floor.mpr ?_
  rw [show ((1 : ℤ) : ℚ) = 1 by norm_num]
  exact (one_le_div hg).mpr hd.le

lemma mul_floor_div_le {g d : ℚ} (hg : 0 < g) : g * ⌊d / g⌋ ≤ d := by
  have h1 : (⌊d / g⌋ : ℚ) ≤ d / g := Int.floor_le _
  calc g * (⌊d / g⌋ : ℚ) ≤ g * (d / g) := by
        exact mul_le_mul_of_nonneg_left h1 hg.le
    _ = d := mul_div_cancel₀ d hg.ne'

lemma check_sell_multiplier_breach_eq_true {cfg : Config} {m : ℤ} :
    check_sell_multiplier_breach cfg m = true ↔ cfg.sell_multiplier_threshold < (m : ℚ) := by
  simp [check_sell_multiplier_breach]

/-! ## Characterizations of the handlers -/

lemma handle_pe_trade_of_le {cfg : Config} {s : State} {p : ℚ} (ok : Bool)
    (h : p ≤ s.nifty_pe_last_value) :
    handle_pe_trade cfg s p ok = (s, none) := by
  unfold handle_pe_trade
  rw [if_pos h]

lemma handle_pe_trade_of_no_cross {cfg : Config} {s : State} {p : ℚ} (ok : Bool)
    (h : ¬ cfg.pe_gap < peDiff s p) :
    handle_pe_trade cfg s p ok = (s, none) := by
  simp only [peDiff] at h
  by_cases h1 : p ≤ s.nifty_pe_last_value
  · simp only [handle_pe_trade, if_pos h1]
  · simp only [handle_pe_trade, if_neg h1, if_neg h]

lemma handle_pe_trade_of_breach {cfg : Config} {s : State} {p : ℚ} (ok : Bool)
    (h1 : ¬ p ≤ s.nifty_pe_last_value) (h2 : cfg.pe_gap < peDiff s p)
    (h3 : cfg.sell_multiplier_threshold < (peMultiplier cfg s p : ℚ)) :
    handle_pe_trade cfg s p ok = (s, none) := by
  simp only [peDiff] at h2
  simp only [peMultiplier, peDiff] at h3
  simp only [handle_pe_trade, if_neg h1, if_pos h2,
    if_pos (check_sell_multiplier_breach_eq_true.mpr h3)]

lemma handle_pe_trade_trigger {cfg : Config} {s : State} {p : ℚ} (ok : Bool)
    (h1 : s.nifty_pe_last_value < p) (h2 : cfg.pe_gap < peDiff s p)
    (h3 : ¬ cfg.sell_multiplier_threshold < (peMultiplier cfg s p : ℚ)) :
    handle_pe_trade cfg s p ok =
      (⟨s.nifty_pe_last_value + cfg.pe_gap * peMultiplier cfg s p,
        s.nifty_ce_last_value,
        ok || s.pe_reset_gap_flag,
        s.ce_reset_gap_flag⟩,
       some ⟨Side.put, find_closest_strike (p - cfg.pe_symbol_gap),
             peMultiplier cfg s p * cfg.pe_quantity,
             cfg.underlying ++ cfg.expiry.toUpper ++
               toString (find_closest_strike (p - cfg.pe_symbol_gap)) ++ "PE"⟩) := by
  simp only [peDiff] at h2
  simp only [peMultiplier, peDiff] at h3
  simp only [handle_pe_trade, if_neg (not_le.mpr h1), if_pos h2,
    if_neg (fun hb => h3 (check_sell_multiplier_breach_eq_true.mp hb))]
  cases ok <;> rfl

lemma handle_ce_trade_of_ge {cfg : Config} {s : State} {p : ℚ} (ok : Bool)
    (h : p ≥ s.nifty_ce_last_value) :
    handle_ce_trade cfg s p ok = (s, none) := by
  unfold handle_ce_trade
  rw [if_pos h]

lemma handle_ce_trade_of_no_cross {cfg : Config} {s : State} {p : ℚ} (ok : Bool)
    (h : ¬ cfg.ce_gap < ceDiff s p) :
    handle_ce_trade cfg s p ok = (s, none) := by
  simp only [ceDiff] at h
  by_cases h1 : p ≥ s.nifty_ce_last_value
  · simp only [handle_ce_trade, if_pos h1]
  · simp only [handle_ce_trade, if_neg h1, if_neg h]

lemma handle_ce_trade_trigger {cfg : Config} {s : State} {p : ℚ} (ok : Bool)
    (h1 : p < s.nifty_ce_last_value) (h2 : cfg.ce_gap < ceDiff s p)
    (h3 : ¬ cfg.sell_multiplier_threshold < (ceMultiplier cfg s p : ℚ)) :
    handle_ce_trade cfg s p ok =
      (⟨s.nifty_pe_last_value,
        s.nifty_ce_last_value - cfg.ce_gap * ceMultiplier cfg s p,
        s.pe_reset_gap_flag,
        ok || s.ce_reset_gap_flag⟩,
       some ⟨Side.call, find_closest_strike (p + cfg.ce_symbol_gap),
             ceMultiplier cfg s p * cfg.ce_quantity,
             cfg.underlying ++ cfg.expiry.toUpper ++
               toString (find_closest_strike (p + cfg.ce_symbol_gap)) ++ "CE"⟩) := by
  simp only [ceDiff] at h2
  simp only [ceMultiplier, ceDiff] at h3
  simp only [handle_ce_trade, if_neg (not_le.mpr h1), if_pos h2,
    if_neg (fun hb => h3 (check_sell_multiplier_breach_eq_true.mp hb))]
  cases ok <;> rfl

/-- The put handler never touches the call-side state. -/
lemma handle_pe_trade_ce_fields (cfg : Config) (s : State) (p : ℚ) (ok : Bool) :
    (handle_pe_trade cfg s p ok).1.nifty_ce_last_value = s.nifty_ce_last_value ∧
    (handle_pe_trade cfg s p ok).1.ce_reset_gap_flag = s.ce_reset_gap_flag := by
  simp only [handle_pe_trade]
  split_ifs <;> exact ⟨rfl, rfl⟩

/-- The call handler never touches the put-side state. -/
lemma handle_ce_trade_pe_fields (cfg : Config) (s : State) (p : ℚ) (ok : Bool) :
    (handle_ce_trade cfg s p ok).1.nifty_pe_last_value = s.nifty_pe_last_value ∧
    (handle_ce_trade cfg s p ok).1.pe_reset_gap_flag = s.pe_reset_gap_flag := by
  simp only [handle_ce_trade]
  split_ifs <;> exact ⟨rfl, rfl⟩

/-- Any signal emitted by the put handler is a PUT signal. -/
lemma handle_pe_trade_side {cfg : Config} {s : State} {p : ℚ} {ok : Bool} {sig : Signal}
    (h : (handle_pe_trade cfg s p ok).2 = some sig) : sig.side = Side.put := by
  simp only [handle_pe_trade] at h
  split_ifs at h <;> simp_all
  · exact congrArg Signal.side h.symm
  · exact congrArg Signal.side h.symm

/-- Any signal emitted by the call handler is a CALL signal. -/
lemma handle_ce_trade_side {cfg : Config} {s : State} {p : ℚ} {ok : Bool} {sig : Signal}
    (h : (handle_ce_trade cfg s p ok).2 = some sig) : sig.side = Side.call := by
  simp only [handle_ce_trade] at h
  split_ifs at h <;> simp_all
  · exact congrArg Signal.side h.symm
  · exact congrArg Signal.side h.symm

lemma reset_pe_branch_pos {cfg : Config} {s : State} {p : ℚ}
    (h : s.pe_reset_gap_flag = true ∧ cfg.pe_reset_gap < s.nifty_pe_last_value - p) :
    reset_pe_branch cfg s p =
      { s with nifty_pe_last_value := p + cfg.pe_reset_gap
               pe_reset_gap_flag := false } := by
  unfold reset_pe_branch
  rw [if_pos h]

lemma reset_pe_branch_neg {cfg : Config} {s : State} {p : ℚ}
    (h : ¬ (s.pe_reset_gap_flag = true ∧ cfg.pe_reset_gap < s.nifty_pe_last_value - p)) :
    reset_pe_branch cfg s p = s := by
  unfold reset_pe_branch
  rw [if_neg h]

lemma reset_ce_branch_pos {cfg : Config} {s : State} {p : ℚ}
    (h : s.ce_reset_gap_flag = true ∧ cfg.ce_reset_gap < p - s.nifty_ce_last_value) :
    reset_ce_branch cfg s p =
      { s with nifty_ce_last_value := p - cfg.ce_reset_gap
               ce_reset_gap_flag := false } := by
  unfold reset_ce_branch
  rw [if_pos h]

lemma reset_ce_branch_neg {cfg : Config} {s : State} {p : ℚ}
    (h : ¬ (s.ce_reset_gap_flag = true ∧ cfg.ce_reset_gap < p - s.nifty_ce_last_value)) :
    reset_ce_branch cfg s p = s := by
  unfold reset_ce_branch
  rw [if_neg h]

/-- The CE reset branch never touches the put-side state. -/
lemma reset_ce_branch_pe_fields (cfg : Config) (s : State) (p : ℚ) :
    (reset_ce_branch cfg s p).nifty_pe_last_value = s.nifty_pe_last_value ∧
    (reset_ce_branch cfg s p).pe_reset_gap_flag = s.pe_reset_gap_flag := by
  unfold reset_ce_branch
  split_ifs <;> exact ⟨rfl, rfl⟩

/-- The PE reset branch never touches the call-side state. -/
lemma reset_pe_branch_ce_fields (cfg : Config) (s : State) (p : ℚ) :
    (reset_pe_branch cfg s p).nifty_ce_last_value = s.nifty_ce_last_value ∧
    (reset_pe_branch cfg s p).ce_reset_gap_flag = s.ce_reset_gap_flag := by
  unfold reset_pe_branch
  split_ifs <;> exact ⟨rfl, rfl⟩

/-! ## Bounds on the computed multipliers -/

lemma peMultiplier_eq_floor {cfg : Config} {s : State} {p : ℚ}
    (hg : 0 < cfg.pe_gap) (h2 : cfg.pe_gap < peDiff s p) :
    peMultiplier cfg s p = ⌊peDiff s p / cfg.pe_gap⌋ := by
  unfold peMultiplier
  exact pyInt_eq_floor (div_nonneg (hg.trans h2).le hg.le)

lemma one_le_peMultiplier {cfg : Config} {s : State} {p : ℚ}
    (hg : 0 < cfg.pe_gap) (h2 : cfg.pe_gap < peDiff s p) :
    1 ≤ peMultiplier cfg s p := by
  rw [peMultiplier_eq_floor hg h2]
  exact one_le_floor_div hg h2

lemma pe_advance_le_diff {cfg : Config} {s : State} {p : ℚ}
    (hg : 0 < cfg.pe_gap) (h2 : cfg.pe_gap < peDiff s p) :
    cfg.pe_gap * (peMultiplier cfg s p : ℚ) ≤ peDiff s p := by
  rw [peMultiplier_eq_floor hg h2]
  exact mul_floor_div_le hg

lemma ceMultiplier_eq_floor {cfg : Config} {s : State} {p : ℚ}
    (hg : 0 < cfg.ce_gap) (h2 : cfg.ce_gap < ceDiff s p) :
    ceMultiplier cfg s p = ⌊ceDiff s p / cfg.ce_gap⌋ := by
  unfold ceMultiplier
  exact pyInt_eq_floor (div_nonneg (hg.trans h2).le hg.le)

lemma one_le_ceMultiplier {cfg : Config} {s : State} {p : ℚ}
    (hg : 0 < cfg.ce_gap) (h2 : cfg.ce_gap < ceDiff s p) :
    1 ≤ ceMultiplier cfg s p := by
  rw [ceMultiplier_eq_floor hg h2]
  exact one_le_floor_div hg h2

lemma ce_advance_le_diff {cfg : Config} {s : State} {p : ℚ}
    (hg : 0 < cfg.ce_gap) (h2 : cfg.ce_gap < ceDiff s p) :
    cfg.ce_gap * (ceMultiplier cfg s p : ℚ) ≤ ceDiff s p := by
  rw [ceMultiplier_eq_floor hg h2]
  exact mul_floor_div_le hg

/-- After a put trigger advances the reference, the new reference is at most
`p + 1/2`, so with `pe_reset_gap ≥ 1/2` the PE reset branch cannot fire on
the same tick. -/
lemma no_pe_reset_after_trigger {cfg : Config} {s : State} {p : ℚ} {t : State}
    (hg : 0 < cfg.pe_gap) (hr : 1/2 ≤ cfg.pe_reset_gap)
    (h2 : cfg.pe_gap < peDiff s p)
    (ht : t.nifty_pe_last_value =
      s.nifty_pe_last_value + cfg.pe_gap * peMultiplier cfg s p) :
    ¬ (t.pe_reset_gap_flag = true ∧
        cfg.pe_reset_gap < t.nifty_pe_last_value - p) := by
  rintro ⟨-, hlt⟩
  have hd : peDiff s p ≤ (p - s.nifty_pe_last_value) + 1/2 := pyRound_le _
  have hm : cfg.pe_gap * (peMultiplier cfg s p : ℚ) ≤ peDiff s p :=
    pe_advance_le_diff hg h2
  rw [ht] at hlt
  linarith

/-- Symmetric fact for the call side. -/
lemma no_ce_reset_after_trigger {cfg : Config} {s : State} {p : ℚ} {t : State}
    (hg : 0 < cfg.ce_gap) (hr : 1/2 ≤ cfg.ce_reset_gap)
    (h2 : cfg.ce_gap < ceDiff s p)
    (ht : t.nifty_ce_last_value =
      s.nifty_ce_last_value - cfg.ce_gap * ceMultiplier cfg s p) :
    ¬ (t.ce_reset_gap_flag = true ∧
        cfg.ce_reset_gap < p - t.nifty_ce_last_value) := by
  rintro ⟨-, hlt⟩
  have hd : ceDiff s p ≤ (s.nifty_ce_last_value - p) + 1/2 := pyRound_le _
  have hm : cfg.ce_gap * (ceMultiplier cfg s p : ℚ) ≤ ceDiff s p :=
    ce_advance_le_diff hg h2
  rw [ht] at hlt
  linarith

/-- Full effect of one `on_ticks_update` call whose put side triggers and is
not suppressed (with a positive gap and a reset gap of at least `1/2`, so the
same-tick reset pass cannot undo the advance): the reference advances by
`pe_gap * multiplier`, the pending-reset flag becomes true exactly if the
order succeeded (otherwise it keeps its previous value), and the PUT signal
heads the emitted list. -/
lemma on_ticks_pe_trigger {cfg : Config} {s : State} {p : ℚ} (peOk ceOk : Bool)
    (hg : 0 < cfg.pe_gap) (hr : 1/2 ≤ cfg.pe_reset_gap)
    (h1 : s.nifty_pe_last_value < p) (h2 : cfg.pe_gap < peDiff s p)
    (h3 : ¬ cfg.sell_multiplier_threshold < (peMultiplier cfg s p : ℚ)) :
    (on_ticks_update cfg s p peOk ceOk).1.nifty_pe_last_value =
        s.nifty_pe_last_value + cfg.pe_gap * peMultiplier cfg s p
    ∧ (on_ticks_update cfg s p peOk ceOk).1.pe_reset_gap_flag =
        (peOk || s.pe_reset_gap_flag)
    ∧ ∃ rest, (on_ticks_update cfg s p peOk ceOk).2 =
        ⟨Side.put, find_closest_strike (p - cfg.pe_symbol_gap),
         peMultiplier cfg s p * cfg.pe_quantity,
         cfg.underlying ++ cfg.expiry.toUpper ++
           toString (find_closest_strike (p - cfg.pe_symbol_gap)) ++ "PE"⟩ :: rest := by
  have htrig := @handle_pe_trade_trigger cfg s p peOk h1 h2 h3
  have hmid := handle_ce_trade_pe_fields cfg
    ⟨s.nifty_pe_last_value + cfg.pe_gap * peMultiplier cfg s p,
     s.nifty_ce_last_value, peOk || s.pe_reset_gap_flag, s.ce_reset_gap_flag⟩ p ceOk
  have hnofire : ¬ ((handle_ce_trade cfg
      ⟨s.nifty_pe_last_value + cfg.pe_gap * peMultiplier cfg s p,
       s.nifty_ce_last_value, peOk || s.pe_reset_gap_flag, s.ce_reset_gap_flag⟩
      p ceOk).1.pe_reset_gap_flag = true ∧
      cfg.pe_reset_gap < (handle_ce_trade cfg
      ⟨s.nifty_pe_last_value + cfg.pe_gap * peMultiplier cfg s p,
       s.nifty_ce_last_value, peOk || s.pe_reset_gap_flag, s.ce_reset_gap_flag⟩
      p ceOk).1.nifty_pe_last_value - p) :=
    no_pe_reset_after_trigger hg hr h2 hmid.1
  have hresetpe := reset_ce_branch_pe_fields cfg
    (reset_pe_branch cfg (handle_ce_trade cfg
      ⟨s.nifty_pe_last_value + cfg.pe_gap * peMultiplier cfg s p,
       s.nifty_ce_last_value, peOk || s.pe_reset_gap_flag, s.ce_reset_gap_flag⟩
      p ceOk).1 p) p
  refine ⟨?_, ?_, (handle_ce_trade cfg
      ⟨s.nifty_pe_last_value + cfg.pe_gap * peMultiplier cfg s p,
       s.nifty_ce_last_value, peOk || s.pe_reset_gap_flag, s.ce_reset_gap_flag⟩
      p ceOk).2.toList, ?_⟩
  · simp only [on_ticks_update, htrig]
    unfold reset_reference_values
    rw [hresetpe.1, reset_pe_branch_neg hnofire, hmid.1]
  · simp only [on_ticks_update, htrig]
    unfold reset_reference_values
    rw [hresetpe.2, reset_pe_branch_neg hnofire, hmid.2]
  · simp only [on_ticks_update, htrig, Option.toList_some, List.singleton_append]

/-- If the put handler does nothing on this tick and the PE reset branch
cannot fire, the put-side state survives `on_ticks_update` unchanged and no
PUT signal is emitted. -/
lemma on_ticks_pe_noop {cfg : Config} {s : State} {p : ℚ} (peOk ceOk : Bool)
    (hno : handle_pe_trade cfg s p peOk = (s, none))
    (hnf : ¬ (s.pe_reset_gap_flag = true ∧
        cfg.pe_reset_gap < s.nifty_pe_last_value - p)) :
    (on_ticks_update cfg s p peOk ceOk).1.nifty_pe_last_value = s.nifty_pe_last_value
    ∧ (on_ticks_update cfg s p peOk ceOk).1.pe_reset_gap_flag = s.pe_reset_gap_flag
    ∧ ∀ sig ∈ (on_ticks_update cfg s p peOk ceOk).2, sig.side ≠ Side.put := by
  have hmid := handle_ce_trade_pe_fields cfg s p ceOk
  have hnf' : ¬ ((handle_ce_trade cfg s p ceOk).1.pe_reset_gap_flag = true ∧
      cfg.pe_reset_gap <
        (handle_ce_trade cfg s p ceOk).1.nifty_pe_last_value - p) := by
    rw [hmid.1, hmid.2]; exact hnf
  have hrpe := reset_ce_branch_pe_fields cfg
    (reset_pe_branch cfg (handle_ce_trade cfg s p ceOk).1 p) p
  refine ⟨?_, ?_, ?_⟩
  · simp only [on_ticks_update, hno]
    unfold reset_reference_values
    rw [hrpe.1, reset_pe_branch_neg hnf', hmid.1]
  · simp only [on_ticks_update, hno]
    unfold reset_reference_values
    rw [hrpe.2, reset_pe_branch_neg hnf', hmid.2]
  · intro sig hmem
    simp only [on_ticks_update, hno, Option.toList_none, List.nil_append] at hmem
    rw [handle_ce_trade_side (Option.mem_def.mp (Option.mem_toList.mp hmem))]
    simp

/-- If the price is at or above the call reference and the CE reset branch
cannot fire, the call-side state survives `on_ticks_update` unchanged and no
CALL signal is emitted. -/
lemma on_ticks_ce_noop {cfg : Config} {s : State} {p : ℚ} (peOk ceOk : Bool)
    (hge : s.nifty_ce_last_value ≤ p)
    (hnf : ¬ (s.ce_reset_gap_flag = true ∧
        cfg.ce_reset_gap < p - s.nifty_ce_last_value)) :
    (on_ticks_update cfg s p peOk ceOk).1.nifty_ce_last_value = s.nifty_ce_last_value
    ∧ (on_ticks_update cfg s p peOk ceOk).1.ce_reset_gap_flag = s.ce_reset_gap_flag
    ∧ ∀ sig ∈ (on_ticks_update cfg s p peOk ceOk).2, sig.side ≠ Side.call := by
  have hpe := handle_pe_trade_ce_fields cfg s p peOk
  have hceno : handle_ce_trade cfg (handle_pe_trade cfg s p peOk).1 p ceOk =
      ((handle_pe_trade cfg s p peOk).1, none) :=
    handle_ce_trade_of_ge ceOk (by rw [hpe.1]; exact hge)
  have hrce := reset_pe_branch_ce_fields cfg (handle_pe_trade cfg s p peOk).1 p
  have hnf' : ¬ ((reset_pe_branch cfg (handle_pe_trade cfg s p peOk).1 p).ce_reset_gap_flag = true ∧
      cfg.ce_reset_gap < p -
        (reset_pe_branch cfg (handle_pe_trade cfg s p peOk).1 p).nifty_ce_last_value) := by
    rw [hrce.1, hrce.2, hpe.1, hpe.2]; exact hnf
  refine ⟨?_, ?_, ?_⟩
  · simp only [on_ticks_update, hceno]
    unfold reset_reference_values
    rw [reset_ce_branch_neg hnf', hrce.1, hpe.1]
  · simp only [on_ticks_update, hceno]
    unfold reset_reference_values
    rw [reset_ce_branch_neg hnf', hrce.2, hpe.2]
  · intro sig hmem
    simp only [on_ticks_update, hceno, Option.toList_none, List.append_nil] at hmem
    rw [handle_pe_trade_side (Option.mem_def.mp (Option.mem_toList.mp hmem))]
    simp

/-! ## Claim theorems -/

/-- C1: for every put-side trigger that is not suppressed, `on_ticks_update`
advances the put reference level by `pe_gap * multiplier` (not to the current
price), where `multiplier = ⌊round(price - reference) / pe_gap⌋`, and the
emitted PUT signal carries `lots = multiplier * pe_quantity`. -/
theorem C1_put_trigger_advance (cfg : Config) (s : State) (p : ℚ) (peOk ceOk : Bool)
    (hg : 0 < cfg.pe_gap) (hr : 1/2 ≤ cfg.pe_reset_gap)
    (h1 : s.nifty_pe_last_value < p) (h2 : cfg.pe_gap < peDiff s p)
    (h3 : ¬ cfg.sell_multiplier_threshold < ((⌊peDiff s p / cfg.pe_gap⌋ : ℤ) : ℚ)) :
    (on_ticks_update cfg s p peOk ceOk).1.nifty_pe_last_value =
        s.nifty_pe_last_value + cfg.pe_gap * ⌊peDiff s p / cfg.pe_gap⌋
    ∧ ∃ sig rest, (on_ticks_update cfg s p peOk ceOk).2 = sig :: rest
        ∧ sig.side = Side.put
        ∧ sig.lots = ⌊peDiff s p / cfg.pe_gap⌋ * cfg.pe_quantity := by
  have hmf := peMultiplier_eq_floor hg h2
  have h3' : ¬ cfg.sell_multiplier_threshold < (peMultiplier cfg s p : ℚ) := by
    rw [hmf]; exact h3
  obtain ⟨ha, -, rest, hsig⟩ := on_ticks_pe_trigger peOk ceOk hg hr h1 h2 h3'
  exact ⟨by rw [ha, hmf], _, rest, hsig, rfl, by rw [← hmf]⟩

/-- Witness for C1: the spec's own example, `pe_gap = 100`, reference 25000,
tick at 25250, `pe_quantity = 1`: the reference advances to 25200 (not to
25250) and the emitted PUT signal has `lots = 2`. -/
theorem C1_put_trigger_advance_witness :
    (on_ticks_update ⟨"NIFTY", "24OCT", 100, 100, 1, 1, 200, 200, 50, 50, 10⟩
        ⟨25000, 25000, false, false⟩ 25250 true true).1.nifty_pe_last_value = 25200
    ∧ ∃ sig rest,
        (on_ticks_update ⟨"NIFTY", "24OCT", 100, 100, 1, 1, 200, 200, 50, 50, 10⟩
          ⟨25000, 25000, false, false⟩ 25250 true true).2 = sig :: rest
        ∧ sig.side = Side.put ∧ sig.lots = 2 := by
  obtain ⟨ha, sig, rest, hl, hside, hlots⟩ :=
    C1_put_trigger_advance ⟨"NIFTY", "24OCT", 100, 100, 1, 1, 200, 200, 50, 50, 10⟩
      ⟨25000, 25000, false, false⟩ 25250 true true (by norm_num) (by norm_num)
      (by norm_num) (by norm_num [peDiff, pyRound]) (by norm_num [peDiff, pyRound])
  refine ⟨?_, sig, rest, hl, hside, ?_⟩
  · rw [ha]; norm_num [peDiff, pyRound]
  · rw [hlots]; norm_num [peDiff, pyRound]

/-- C2 counterexample: with `pe_gap = 100`, reference 25000 and a tick at
25250 the put trigger fires and advances the reference to 25200 and emits a
signal, yet when order placement fails (`peOk = false`) the pending-reset
flag stays `false` — contradicting the claim that the flag set commits
regardless of the downstream order outcome. -/
theorem C2_counterexample :
    (on_ticks_update ⟨"NIFTY", "24OCT", 100, 100, 1, 1, 200, 200, 50, 50, 10⟩
        ⟨25000, 25000, false, false⟩ 25250 false false).1.nifty_pe_last_value = 25200
    ∧ (on_ticks_update ⟨"NIFTY", "24OCT", 100, 100, 1, 1, 200, 200, 50, 50, 10⟩
        ⟨25000, 25000, false, false⟩ 25250 false false).2 ≠ []
    ∧ (on_ticks_update ⟨"NIFTY", "24OCT", 100, 100, 1, 1, 200, 200, 50, 50, 10⟩
        ⟨25000, 25000, false, false⟩ 25250 false false).1.pe_reset_gap_flag = false := by
  norm_num [on_ticks_update, handle_pe_trade, handle_ce_trade, reset_reference_values,
    reset_pe_branch, reset_ce_branch, check_sell_multiplier_breach, pyRound, pyInt]

/-- C2 (amended): when a put-side trigger fires un-suppressed, the engine
emits a PUT signal and the reference advance commits regardless of the
order-placement outcome; the pending-reset flag, however, is set to `true`
only when order placement returns an order id — on failure it keeps its
previous value. -/
theorem C2_put_trigger_commit (cfg : Config) (s : State) (p : ℚ) (ceOk : Bool)
    (hg : 0 < cfg.pe_gap) (hr : 1/2 ≤ cfg.pe_reset_gap)
    (h1 : s.nifty_pe_last_value < p) (h2 : cfg.pe_gap < peDiff s p)
    (h3 : ¬ cfg.sell_multiplier_threshold < (peMultiplier cfg s p : ℚ)) :
    (on_ticks_update cfg s p true ceOk).1.nifty_pe_last_value =
        s.nifty_pe_last_value + cfg.pe_gap * peMultiplier cfg s p
    ∧ (on_ticks_update cfg s p false ceOk).1.nifty_pe_last_value =
        s.nifty_pe_last_value + cfg.pe_gap * peMultiplier cfg s p
    ∧ (∃ sig rest, (on_ticks_update cfg s p true ceOk).2 = sig :: rest
        ∧ sig.side = Side.put)
    ∧ (∃ sig rest, (on_ticks_update cfg s p false ceOk).2 = sig :: rest
        ∧ sig.side = Side.put)
    ∧ (on_ticks_update cfg s p true ceOk).1.pe_reset_gap_flag = true
    ∧ (on_ticks_update cfg s p false ceOk).1.pe_reset_gap_flag = s.pe_reset_gap_flag := by
  obtain ⟨haT, hbT, restT, hsigT⟩ := on_ticks_pe_trigger true ceOk hg hr h1 h2 h3
  obtain ⟨haF, hbF, restF, hsigF⟩ := on_ticks_pe_trigger false ceOk hg hr h1 h2 h3
  exact ⟨haT, haF, ⟨_, restT, hsigT, rfl⟩, ⟨_, restF, hsigF, rfl⟩,
    by rw [hbT]; rfl, by rw [hbF]; rfl⟩

/-- Witness for C2 (amended): at the concrete trigger of the counterexample,
a successful order sets the flag, a failed one leaves it `false`, and the
reference advances to 25200 either way. -/
theorem C2_put_trigger_commit_witness :
    (on_ticks_update ⟨"NIFTY", "24OCT", 100, 100, 1, 1, 200, 200, 50, 50, 10⟩
        ⟨25000, 25000, false, false⟩ 25250 true true).1.pe_reset_gap_flag = true
    ∧ (on_ticks_update ⟨"NIFTY", "24OCT", 100, 100, 1, 1, 200, 200, 50, 50, 10⟩
        ⟨25000, 25000, false, false⟩ 25250 false true).1.pe_reset_gap_flag = false
    ∧ (on_ticks_update ⟨"NIFTY", "24OCT", 100, 100, 1, 1, 200, 200, 50, 50, 10⟩
        ⟨25000, 25000, false, false⟩ 25250 false true).1.nifty_pe_last_value = 25200 := by
  obtain ⟨-, haF, -, -, hfT, hfF⟩ :=
    C2_put_trigger_commit ⟨"NIFTY", "24OCT", 100, 100, 1, 1, 200, 200, 50, 50, 10⟩
      ⟨25000, 25000, false, false⟩ 25250 true (by norm_num) (by norm_num)
      (by norm_num) (by norm_num [peDiff, pyRound])
      (by norm_num [peMultiplier, peDiff, pyRound, pyInt])
  refine ⟨hfT, hfF, ?_⟩
  rw [haF]
  norm_num [peMultiplier, peDiff, pyRound, pyInt]

/-- C4: whenever the computed put-side multiplier exceeds the ceiling, the
put handler is a pure no-op and `on_ticks_update` leaves the put reference
and pending-reset flag unchanged and emits no PUT signal. -/
theorem C4_ceiling_suppression_no_op (cfg : Config) (s : State) (p : ℚ)
    (peOk ceOk : Bool) (hr : 0 ≤ cfg.pe_reset_gap)
    (h1 : s.nifty_pe_last_value < p) (h2 : cfg.pe_gap < peDiff s p)
    (h3 : cfg.sell_multiplier_threshold < (peMultiplier cfg s p : ℚ)) :
    handle_pe_trade cfg s p peOk = (s, none)
    ∧ (on_ticks_update cfg s p peOk ceOk).1.nifty_pe_last_value = s.nifty_pe_last_value
    ∧ (on_ticks_update cfg s p peOk ceOk).1.pe_reset_gap_flag = s.pe_reset_gap_flag
    ∧ ∀ sig ∈ (on_ticks_update cfg s p peOk ceOk).2, sig.side ≠ Side.put := by
  have hno := handle_pe_trade_of_breach peOk (not_le.mpr h1) h2 h3
  have hnf : ¬ (s.pe_reset_gap_flag = true ∧
      cfg.pe_reset_gap < s.nifty_pe_last_value - p) := by
    rintro ⟨-, hlt⟩
    linarith
  obtain ⟨ha, hb, hc⟩ := on_ticks_pe_noop peOk ceOk hno hnf
  exact ⟨hno, ha, hb, hc⟩

/-- Witness for C4: the spec's example, ceiling 3 and computed multiplier 4
(`pe_gap = 100`, reference 25000, tick at 25450): no signal, reference and
flag unchanged. -/
theorem C4_ceiling_suppression_no_op_witness :
    handle_pe_trade ⟨"NIFTY", "24OCT", 100, 100, 1, 1, 200, 200, 50, 50, 3⟩
        ⟨25000, 25000, false, false⟩ 25450 true = (⟨25000, 25000, false, false⟩, none)
    ∧ (on_ticks_update ⟨"NIFTY", "24OCT", 100, 100, 1, 1, 200, 200, 50, 50, 3⟩
        ⟨25000, 25000, false, false⟩ 25450 true true).1.nifty_pe_last_value = 25000
    ∧ (on_ticks_update ⟨"NIFTY", "24OCT", 100, 100, 1, 1, 200, 200, 50, 50, 3⟩
        ⟨25000, 25000, false, false⟩ 25450 true true).1.pe_reset_gap_flag = false := by
  obtain ⟨ha, hb, hc, -⟩ :=
    C4_ceiling_suppression_no_op ⟨"NIFTY", "24OCT", 100, 100, 1, 1, 200, 200, 50, 50, 3⟩
      ⟨25000, 25000, false, false⟩ 25450 true true (by norm_num) (by norm_num)
      (by norm_num [peDiff, pyRound])
      (by norm_num [peMultiplier, peDiff, pyRound, pyInt])
  exact ⟨ha, hb, hc⟩

/-- C5: boundary equality never triggers — a tick exactly at the put
reference changes no put-side state and emits no PUT signal, and a rounded
difference exactly equal to the gap leaves either handler a no-op. -/
theorem C5_boundary_equality_no_trigger (cfg : Config) (s : State) (p : ℚ)
    (peOk ceOk : Bool) (hr : 0 ≤ cfg.pe_reset_gap) :
    (p = s.nifty_pe_last_value →
        (on_ticks_update cfg s p peOk ceOk).1.nifty_pe_last_value = s.nifty_pe_last_value
      ∧ (on_ticks_update cfg s p peOk ceOk).1.pe_reset_gap_flag = s.pe_reset_gap_flag
      ∧ ∀ sig ∈ (on_ticks_update cfg s p peOk ceOk).2, sig.side ≠ Side.put)
    ∧ (peDiff s p = cfg.pe_gap → handle_pe_trade cfg s p peOk = (s, none))
    ∧ (ceDiff s p = cfg.ce_gap → handle_ce_trade cfg s p peOk = (s, none)) := by
  refine ⟨fun h => ?_, fun h => ?_, fun h => ?_⟩
  · have hno := @handle_pe_trade_of_le cfg s p peOk (le_of_eq h)
    have hnf : ¬ (s.pe_reset_gap_flag = true ∧
        cfg.pe_reset_gap < s.nifty_pe_last_value - p) := by
      rintro ⟨-, hlt⟩
      rw [h] at hlt
      simp at hlt
      linarith
    exact on_ticks_pe_noop peOk ceOk hno hnf
  · exact handle_pe_trade_of_no_cross peOk (by rw [h]; exact lt_irrefl _)
  · exact handle_ce_trade_of_no_cross peOk (by rw [h]; exact lt_irrefl _)

/-- Witness for C5: with reference levels 25000 and `gap = 100`, a tick at
25000 leaves the put side untouched, a tick at 25100 (rounded diff exactly
100) does not trigger the put handler, and a tick at 24900 does not trigger
the call handler. -/
theorem C5_boundary_equality_no_trigger_witness :
    ((on_ticks_update ⟨"NIFTY", "24OCT", 100, 100, 1, 1, 200, 200, 50, 50, 10⟩
        ⟨25000, 25000, false, false⟩ 25000 true true).1.nifty_pe_last_value = 25000
      ∧ (on_ticks_update ⟨"NIFTY", "24OCT", 100, 100, 1, 1, 200, 200, 50, 50, 10⟩
        ⟨25000, 25000, false, false⟩ 25000 true true).1.pe_reset_gap_flag = false)
    ∧ handle_pe_trade ⟨"NIFTY", "24OCT", 100, 100, 1, 1, 200, 200, 50, 50, 10⟩
        ⟨25000, 25000, false, false⟩ 25100 true = (⟨25000, 25000, false, false⟩, none)
    ∧ handle_ce_trade ⟨"NIFTY", "24OCT", 100, 100, 1, 1, 200, 200, 50, 50, 10⟩
        ⟨25000, 25000, false, false⟩ 24900 true = (⟨25000, 25000, false, false⟩, none) := by
  have h1 := (C5_boundary_equality_no_trigger
    ⟨"NIFTY", "24OCT", 100, 100, 1, 1, 200, 200, 50, 50, 10⟩
    ⟨25000, 25000, false, false⟩ 25000 true true (by norm_num)).1 rfl
  have h2 := (C5_boundary_equality_no_trigger
    ⟨"NIFTY", "24OCT", 100, 100, 1, 1, 200, 200, 50, 50, 10⟩
    ⟨25000, 25000, false, false⟩ 25100 true true (by norm_num)).2.1
    (by norm_num [peDiff, pyRound])
  have h3 := (C5_boundary_equality_no_trigger
    ⟨"NIFTY", "24OCT", 100, 100, 1, 1, 200, 200, 50, 50, 10⟩
    ⟨25000, 25000, false, false⟩ 24900 true true (by norm_num)).2.2
    (by norm_num [ceDiff, pyRound])
  exact ⟨⟨h1.1, h1.2.1⟩, h2, h3⟩

/-- C6: reset semantics.  If the put pending-reset flag is set and the price
has dropped more than `pe_reset_gap` below the reference, `on_ticks_update`
pulls the reference to `price + pe_reset_gap` and clears the flag; a drop of
`pe_reset_gap` or less leaves the reset branch inert.  Symmetric for the
call side in the opposite direction. -/
theorem C6_reset_semantics (cfg : Config) (s : State) (p : ℚ) (peOk ceOk : Bool)
    (hrp : 0 ≤ cfg.pe_reset_gap) (hrc : 0 ≤ cfg.ce_reset_gap) :
    (s.pe_reset_gap_flag = true → cfg.pe_reset_gap < s.nifty_pe_last_value - p →
        (on_ticks_update cfg s p peOk ceOk).1.nifty_pe_last_value = p + cfg.pe_reset_gap
      ∧ (on_ticks_update cfg s p peOk ceOk).1.pe_reset_gap_flag = false)
    ∧ (s.nifty_pe_last_value - p ≤ cfg.pe_reset_gap → reset_pe_branch cfg s p = s)
    ∧ (s.ce_reset_gap_flag = true → cfg.ce_reset_gap < p - s.nifty_ce_last_value →
        (on_ticks_update cfg s p peOk ceOk).1.nifty_ce_last_value = p - cfg.ce_reset_gap
      ∧ (on_ticks_update cfg s p peOk ceOk).1.ce_reset_gap_flag = false)
    ∧ (p - s.nifty_ce_last_value ≤ cfg.ce_reset_gap → reset_ce_branch cfg s p = s) := by
  refine ⟨fun hflag hlt => ?_, fun hle => ?_, fun hflag hlt => ?_, fun hle => ?_⟩
  · -- PE reset fires: the put handler cannot trigger (price is below the
    -- reference), the CE handler preserves the put side, then the PE reset
    -- branch fires and the CE reset branch preserves the put side.
    have hp : p < s.nifty_pe_last_value := by linarith
    have hno := @handle_pe_trade_of_le cfg s p peOk hp.le
    have hmid := handle_ce_trade_pe_fields cfg s p ceOk
    have hpos := @reset_pe_branch_pos cfg (handle_ce_trade cfg s p ceOk).1 p
      ⟨by rw [hmid.2]; exact hflag, by rw [hmid.1]; exact hlt⟩
    have hrpe := reset_ce_branch_pe_fields cfg
      (reset_pe_branch cfg (handle_ce_trade cfg s p ceOk).1 p) p
    constructor
    · simp only [on_ticks_update, hno]
      unfold reset_reference_values
      rw [hrpe.1, hpos]
    · simp only [on_ticks_update, hno]
      unfold reset_reference_values
      rw [hrpe.2, hpos]
  · exact reset_pe_branch_neg (by rintro ⟨-, hlt⟩; linarith)
  · -- CE reset fires: the call handler cannot trigger (price is above the
    -- reference carried through the put handler), then the CE reset branch
    -- fires on the state left by the (inert on the call side) PE branch.
    have hp : s.nifty_ce_last_value < p := by linarith
    have hpe := handle_pe_trade_ce_fields cfg s p peOk
    have hceno : handle_ce_trade cfg (handle_pe_trade cfg s p peOk).1 p ceOk =
        ((handle_pe_trade cfg s p peOk).1, none) :=
      handle_ce_trade_of_ge ceOk (by rw [hpe.1]; exact hp.le)
    have hrce := reset_pe_branch_ce_fields cfg (handle_pe_trade cfg s p peOk).1 p
    have hpos := @reset_ce_branch_pos cfg
      (reset_pe_branch cfg (handle_pe_trade cfg s p peOk).1 p) p
      ⟨by rw [hrce.2, hpe.2]; exact hflag, by rw [hrce.1, hpe.1]; exact hlt⟩
    constructor
    · simp only [on_ticks_update, hceno]
      unfold reset_reference_values
      rw [hpos]
    · simp only [on_ticks_update, hceno]
      unfold reset_reference_values
      rw [hpos]
  · exact reset_ce_branch_neg (by rintro ⟨-, hlt⟩; linarith)

/-- Witness for C6: with `pe_reset_gap = 50`, a pending put reset at
reference 25200 and a tick at 25100 (drop 100 > 50) resets the reference to
25150 and clears the flag; a tick at 25160 (drop 40 ≤ 50) leaves the PE
reset branch inert. -/
theorem C6_reset_semantics_witness :
    ((on_ticks_update ⟨"NIFTY", "24OCT", 100, 100, 1, 1, 200, 200, 50, 50, 10⟩
        ⟨25200, 25000, true, false⟩ 25100 true true).1.nifty_pe_last_value = 25150
      ∧ (on_ticks_update ⟨"NIFTY", "24OCT", 100, 100, 1, 1, 200, 200, 50, 50, 10⟩
        ⟨25200, 25000, true, false⟩ 25100 true true).1.pe_reset_gap_flag = false)
    ∧ reset_pe_branch ⟨"NIFTY", "24OCT", 100, 100, 1, 1, 200, 200, 50, 50, 10⟩
        ⟨25200, 25000, true, false⟩ 25160 = ⟨25200, 25000, true, false⟩ := by
  have h1 := (C6_reset_semantics ⟨"NIFTY", "24OCT", 100, 100, 1, 1, 200, 200, 50, 50, 10⟩
    ⟨25200, 25000, true, false⟩ 25100 true true (by norm_num) (by norm_num)).1
    rfl (by norm_num)
  have h2 := (C6_reset_semantics ⟨"NIFTY", "24OCT", 100, 100, 1, 1, 200, 200, 50, 50, 10⟩
    ⟨25200, 25000, true, false⟩ 25160 true true (by norm_num) (by norm_num)).2.1
    (by norm_num)
  refine ⟨⟨?_, h1.2⟩, h2⟩
  rw [h1.1]
  norm_num

/-- The put handler never lowers the put reference (positive gap). -/
lemma handle_pe_trade_pe_mono {cfg : Config} {s : State} {p : ℚ} (ok : Bool)
    (hg : 0 < cfg.pe_gap) :
    s.nifty_pe_last_value ≤ (handle_pe_trade cfg s p ok).1.nifty_pe_last_value := by
  by_cases h1 : p ≤ s.nifty_pe_last_value
  · rw [handle_pe_trade_of_le ok h1]
  by_cases h2 : cfg.pe_gap < peDiff s p
  · by_cases h3 : cfg.sell_multiplier_threshold < (peMultiplier cfg s p : ℚ)
    · rw [handle_pe_trade_of_breach ok h1 h2 h3]
    · rw [handle_pe_trade_trigger ok (not_le.mp h1) h2 h3]
      have hm : (1 : ℚ) ≤ (peMultiplier cfg s p : ℚ) := by
        exact_mod_cast one_le_peMultiplier hg h2
      have := mul_nonneg hg.le (by linarith : (0:ℚ) ≤ (peMultiplier cfg s p : ℚ))
      show s.nifty_pe_last_value ≤
        s.nifty_pe_last_value + cfg.pe_gap * (peMultiplier cfg s p : ℚ)
      linarith
  · rw [handle_pe_trade_of_no_cross ok h2]

/-- The call handler never raises the call reference (positive gap). -/
lemma handle_ce_trade_ce_mono {cfg : Config} {s : State} {p : ℚ} (ok : Bool)
    (hg : 0 < cfg.ce_gap) :
    (handle_ce_trade cfg s p ok).1.nifty_ce_last_value ≤ s.nifty_ce_last_value := by
  by_cases h1 : p ≥ s.nifty_ce_last_value
  · rw [handle_ce_trade_of_ge ok h1]
  by_cases h2 : cfg.ce_gap < ceDiff s p
  · by_cases h3 : cfg.sell_multiplier_threshold < (ceMultiplier cfg s p : ℚ)
    · simp only [ceDiff] at h2
      simp only [ceMultiplier, ceDiff] at h3
      simp only [handle_ce_trade, if_neg h1, if_pos h2,
        if_pos (check_sell_multiplier_breach_eq_true.mpr h3)]
      exact le_rfl
    · rw [handle_ce_trade_trigger ok (not_le.mp h1) h2 h3]
      have hm : (1 : ℚ) ≤ (ceMultiplier cfg s p : ℚ) := by
        exact_mod_cast one_le_ceMultiplier hg h2
      have := mul_nonneg hg.le (by linarith : (0:ℚ) ≤ (ceMultiplier cfg s p : ℚ))
      show s.nifty_ce_last_value - cfg.ce_gap * (ceMultiplier cfg s p : ℚ) ≤
        s.nifty_ce_last_value
      linarith
  · rw [handle_ce_trade_of_no_cross ok h2]

/-- One tick never lowers the put reference unless its PE reset fires. -/
lemma on_ticks_pe_mono {cfg : Config} {s : State} (t : Tick)
    (hg : 0 < cfg.pe_gap) (hnf : ¬ putResetFires cfg s t) :
    s.nifty_pe_last_value ≤
      (on_ticks_update cfg s t.price t.peOk t.ceOk).1.nifty_pe_last_value := by
  have h1 := @handle_pe_trade_pe_mono cfg s t.price t.peOk hg
  have h2 := handle_ce_trade_pe_fields cfg
    (handle_pe_trade cfg s t.price t.peOk).1 t.price t.ceOk
  have hrpe := reset_ce_branch_pe_fields cfg
    (reset_pe_branch cfg (handle_ce_trade cfg
      (handle_pe_trade cfg s t.price t.peOk).1 t.price t.ceOk).1 t.price) t.price
  unfold putResetFires at hnf
  simp only [on_ticks_update]
  unfold reset_reference_values
  rw [hrpe.1, reset_pe_branch_neg hnf, h2.1]
  exact h1

/-- One tick never raises the call reference unless its CE reset fires. -/
lemma on_ticks_ce_mono {cfg : Config} {s : State} (t : Tick)
    (hg : 0 < cfg.ce_gap) (hnf : ¬ ceResetFires cfg s t) :
    (on_ticks_update cfg s t.price t.peOk t.ceOk).1.nifty_ce_last_value ≤
      s.nifty_ce_last_value := by
  have h0 := handle_pe_trade_ce_fields cfg s t.price t.peOk
  have h1 := @handle_ce_trade_ce_mono cfg
    (handle_pe_trade cfg s t.price t.peOk).1 t.price t.ceOk hg
  have hrce := reset_pe_branch_ce_fields cfg (handle_ce_trade cfg
    (handle_pe_trade cfg s t.price t.peOk).1 t.price t.ceOk).1 t.price
  unfold ceResetFires at hnf
  have hnf' : ¬ ((reset_pe_branch cfg (handle_ce_trade cfg
      (handle_pe_trade cfg s t.price t.peOk).1 t.price t.ceOk).1
        t.price).ce_reset_gap_flag = true ∧
      cfg.ce_reset_gap < t.price - (reset_pe_branch cfg (handle_ce_trade cfg
      (handle_pe_trade cfg s t.price t.peOk).1 t.price t.ceOk).1
        t.price).nifty_ce_last_value) := by
    rw [hrce.1, hrce.2]; exact hnf
  simp only [on_ticks_update]
  unfold reset_reference_values
  rw [reset_ce_branch_neg hnf', hrce.1]
  calc (handle_ce_trade cfg (handle_pe_trade cfg s t.price t.peOk).1 t.price
        t.ceOk).1.nifty_ce_last_value
      ≤ (handle_pe_trade cfg s t.price t.peOk).1.nifty_ce_last_value := h1
    _ = s.nifty_ce_last_value := h0.1

/-- C7: over any tick sequence with positive gaps, the put reference is
non-decreasing as long as no PE reset fires along the run, and the call
reference is non-increasing as long as no CE reset fires along the run —
no ordinary tick moves a reference against its direction of price pressure. -/
theorem C7_monotone_between_resets (cfg : Config) (ts : List Tick)
    (hg1 : 0 < cfg.pe_gap) (hg2 : 0 < cfg.ce_gap) :
    ∀ s : State,
      (noPutResetRun cfg s ts →
        s.nifty_pe_last_value ≤ (runTicks cfg s ts).1.nifty_pe_last_value)
      ∧ (noCeResetRun cfg s ts →
        (runTicks cfg s ts).1.nifty_ce_last_value ≤ s.nifty_ce_last_value) := by
  induction ts with
  | nil => exact fun s => ⟨fun _ => le_rfl, fun _ => le_rfl⟩
  | cons t ts ih =>
      intro s
      constructor
      · rintro ⟨hnf, hrest⟩
        calc s.nifty_pe_last_value
            ≤ (on_ticks_update cfg s t.price t.peOk t.ceOk).1.nifty_pe_last_value :=
              on_ticks_pe_mono t hg1 hnf
          _ ≤ (runTicks cfg (on_ticks_update cfg s t.price t.peOk t.ceOk).1
                ts).1.nifty_pe_last_value :=
              (ih (on_ticks_update cfg s t.price t.peOk t.ceOk).1).1 hrest
      · rintro ⟨hnf, hrest⟩
        calc (runTicks cfg s (t :: ts)).1.nifty_ce_last_value
            = (runTicks cfg (on_ticks_update cfg s t.price t.peOk t.ceOk).1
                ts).1.nifty_ce_last_value := rfl
          _ ≤ (on_ticks_update cfg s t.price t.peOk t.ceOk).1.nifty_ce_last_value :=
              (ih (on_ticks_update cfg s t.price t.peOk t.ceOk).1).2 hrest
          _ ≤ s.nifty_ce_last_value := on_ticks_ce_mono t hg2 hnf

/-- Witness for C7: a two-tick run (a triggering tick at 25250 then a quiet
tick at 25210) along which no reset fires; the put reference never falls
below 25000 and the call reference never rises above 25000. -/
theorem C7_monotone_between_resets_witness :
    (25000 : ℚ) ≤ (runTicks ⟨"NIFTY", "24OCT", 100, 100, 1, 1, 200, 200, 50, 50, 10⟩
        ⟨25000, 25000, false, false⟩
        [⟨25250, true, true⟩, ⟨25210, true, true⟩]).1.nifty_pe_last_value
    ∧ (runTicks ⟨"NIFTY", "24OCT", 100, 100, 1, 1, 200, 200, 50, 50, 10⟩
        ⟨25000, 25000, false, false⟩
        [⟨25250, true, true⟩, ⟨25210, true, true⟩]).1.nifty_ce_last_value ≤ 25000 := by
  have h := C7_monotone_between_resets
    ⟨"NIFTY", "24OCT", 100, 100, 1, 1, 200, 200, 50, 50, 10⟩
    [⟨25250, true, true⟩, ⟨25210, true, true⟩] (by norm_num) (by norm_num)
    ⟨25000, 25000, false, false⟩
  refine ⟨h.1 ?_, h.2 ?_⟩ <;>
    norm_num [noPutResetRun, noCeResetRun, putResetFires, ceResetFires,
      on_ticks_update, handle_pe_trade, handle_ce_trade, reset_reference_values,
      reset_pe_branch, reset_ce_branch, check_sell_multiplier_breach,
      pyRound, pyInt]

/-- Call-side invariant for a run: if the call reference sits at `p0` with no
pending call reset and every tick's price stays at or above `p0`, the whole
run preserves the call side and emits no CALL signal. -/
lemma run_ce_invariant (cfg : Config) (p0 : ℚ) (ts : List Tick) :
    ∀ s : State, s.nifty_ce_last_value = p0 → s.ce_reset_gap_flag = false →
    (∀ t ∈ ts, p0 ≤ t.price) →
    (runTicks cfg s ts).1.nifty_ce_last_value = p0
    ∧ (runTicks cfg s ts).1.ce_reset_gap_flag = false
    ∧ ∀ sig ∈ (runTicks cfg s ts).2, sig.side ≠ Side.call := by
  induction ts with
  | nil =>
      intro s h1 h2 _
      exact ⟨h1, h2, by intro sig hmem; cases hmem⟩
  | cons t ts ih =>
      intro s h1 h2 hall
      have hge : s.nifty_ce_last_value ≤ t.price := by
        rw [h1]; exact hall t (List.mem_cons_self t ts)
      have hnf : ¬ (s.ce_reset_gap_flag = true ∧
          cfg.ce_reset_gap < t.price - s.nifty_ce_last_value) := by
        rintro ⟨hf, -⟩
        rw [h2] at hf
        cases hf
      obtain ⟨ha, hb, hc⟩ := on_ticks_ce_noop t.peOk t.ceOk hge hnf
      obtain ⟨ia, ib, ic⟩ := ih (on_ticks_update cfg s t.price t.peOk t.ceOk).1
        (by rw [ha, h1]) (by rw [hb, h2]) (fun u hu => hall u (List.mem_cons_of_mem t hu))
      refine ⟨ia, ib, ?_⟩
      intro sig hmem
      simp only [runTicks] at hmem
      rcases List.mem_append.mp hmem with hm | hm
      · exact hc sig hm
      · exact ic sig hm

/-- C8: starting from a state whose reference levels are both initialized to
the first observed price `p0`, a tick sequence whose prices all stay at or
above `p0` never mutates the call reference, never sets the call
pending-reset flag, and never emits a CALL signal. -/
theorem C8_upward_run_call_side_untouched (cfg : Config) (p0 : ℚ) (ts : List Tick)
    (h : ∀ t ∈ ts, p0 ≤ t.price) :
    (runTicks cfg ⟨p0, p0, false, false⟩ ts).1.nifty_ce_last_value = p0
    ∧ (runTicks cfg ⟨p0, p0, false, false⟩ ts).1.ce_reset_gap_flag = false
    ∧ ∀ sig ∈ (runTicks cfg ⟨p0, p0, false, false⟩ ts).2, sig.side ≠ Side.call :=
  run_ce_invariant cfg p0 ts ⟨p0, p0, false, false⟩ rfl rfl h

/-- Witness for C8: an upward three-tick run from 25000 (including a put
trigger) leaves the call reference at 25000 with the call flag clear, and
every emitted signal is a PUT signal. -/
theorem C8_upward_run_call_side_untouched_witness :
    (runTicks ⟨"NIFTY", "24OCT", 100, 100, 1, 1, 200, 200, 50, 50, 10⟩
        ⟨25000, 25000, false, false⟩
        [⟨25250, true, true⟩, ⟨25000, true, true⟩, ⟨25600, true, true⟩]).1.nifty_ce_last_value
      = 25000
    ∧ (runTicks ⟨"NIFTY", "24OCT", 100, 100, 1, 1, 200, 200, 50, 50, 10⟩
        ⟨25000, 25000, false, false⟩
        [⟨25250, true, true⟩, ⟨25000, true, true⟩, ⟨25600, true, true⟩]).1.ce_reset_gap_flag
      = false := by
  obtain ⟨ha, hb, -⟩ := C8_upward_run_call_side_untouched
    ⟨"NIFTY", "24OCT", 100, 100, 1, 1, 200, 200, 50, 50, 10⟩ 25000
    [⟨25250, true, true⟩, ⟨25000, true, true⟩, ⟨25600, true, true⟩]
    (by
      intro t ht
      simp only [List.mem_cons, List.not_mem_nil, or_false] at ht
      rcases ht with h | h | h <;> subst h <;> norm_num)
  exact ⟨ha, hb⟩

/-- C9 counterexample: the code's strike for target 25140 is 25150 (the
spec's own example), but with a configured rounding step of 100 the spec
formula gives 25100 — the code ignores any configured `strikeRoundingStep`
and always rounds to a multiple of 50. -/
theorem C9_counterexample :
    (find_closest_strike (25340 - 200) : ℚ) = 25150
    ∧ spec_strike (25340 - 200) 100 = 25100
    ∧ (find_closest_strike (25340 - 200) : ℚ) ≠ spec_strike (25340 - 200) 100 := by
  norm_num [find_closest_strike, spec_strike, pyRound]

/-- C9 (amended): strike derivation rounds the offset-adjusted price to the
nearest multiple of the hardcoded step 50 — every emitted PUT signal carries
`strike = round((price - pe_symbol_gap) / 50) * 50`. -/
theorem C9_strike_rounding (cfg : Config) (s : State) (p : ℚ) (ok : Bool)
    (sig : Signal) (h : (handle_pe_trade cfg s p ok).2 = some sig) :
    (sig.strike : ℚ) = spec_strike (p - cfg.pe_symbol_gap) 50
    ∧ sig.strike = find_closest_strike (p - cfg.pe_symbol_gap) := by
  have hs : sig.strike = find_closest_strike (p - cfg.pe_symbol_gap) := by
    simp only [handle_pe_trade] at h
    split_ifs at h <;> simp_all
    · exact congrArg Signal.strike h.symm
    · exact congrArg Signal.strike h.symm
  refine ⟨?_, hs⟩
  rw [hs]
  unfold find_closest_strike spec_strike
  push_cast
  ring

/-- Witness for C9 (amended): at price 25340 with `pe_symbol_gap = 200` the
triggered PUT signal's strike is `round(25140 / 50) * 50 = 25150`. -/
theorem C9_strike_rounding_witness :
    ∃ sig : Signal,
      (handle_pe_trade ⟨"NIFTY", "24OCT", 100, 100, 1, 1, 200, 200, 50, 50, 10⟩
        ⟨25000, 25000, false, false⟩ 25340 true).2 = some sig
      ∧ (sig.strike : ℚ) = spec_strike (25340 - 200) 50
      ∧ sig.strike = 25150 := by
  have h : (handle_pe_trade ⟨"NIFTY", "24OCT", 100, 100, 1, 1, 200, 200, 50, 50, 10⟩
      ⟨25000, 25000, false, false⟩ 25340 true).2 =
      some ⟨Side.put, 25150, 3,
        "NIFTY" ++ "24OCT".toUpper ++ toString (25150 : ℤ) ++ "PE"⟩ := by
    norm_num [handle_pe_trade, check_sell_multiplier_breach, find_closest_strike,
      pyRound, pyInt]
  have hmain := C9_strike_rounding
    ⟨"NIFTY", "24OCT", 100, 100, 1, 1, 200, 200, 50, 50, 10⟩
    ⟨25000, 25000, false, false⟩ 25340 true _ h
  exact ⟨_, h, hmain.1, rfl⟩

/-- C3 counterexample: a configuration mapping missing both `pe_gap` and
`ce_gap` (the required gap keys) does NOT fail configuration loading — the
engine constructs successfully, so the claimed descriptive pre-construction
error does not exist. -/
theorem C3_counterexample :
    construct_engine ⟨some "NIFTY", some "24OCT", none, none, some 1, some 1,
        some 200, some 200, some 50, some 50, some 10, some 0, some 0, []⟩ 25000 0
      = .ok ⟨25000, 25000, false, false⟩ := by
  norm_num [construct_engine]

/-- C3 (amended): configuration loading performs no validation.  A mapping
missing `underlying` (or `expiry`) fails during construction with an
`AttributeError` raised when `__init__` first reads the attribute — not a
descriptive configuration-loading error; a mapping missing the gap keys
constructs the engine successfully (the failure can only surface later, on
the first evaluated tick); unknown keys are set as attributes and otherwise
ignored. -/
theorem C3_config_loading (c : RawConfig) :
    (c.underlying = none →
      ∀ q1 q2, construct_engine c q1 q2 = .error "AttributeError: underlying")
    ∧ (∀ u, c.underlying = some u → c.expiry = none →
      ∀ q1 q2, construct_engine c q1 q2 = .error "AttributeError: expiry")
    ∧ construct_engine ⟨some "NIFTY", some "24OCT", none, none, some 1, some 1,
        some 200, some 200, some 50, some 50, some 10, some 0, some 0, []⟩ 25000 0
      = .ok ⟨25000, 25000, false, false⟩
    ∧ (∀ e q1 q2, construct_engine { c with extra := e } q1 q2 =
        construct_engine c q1 q2) := by
  refine ⟨fun h q1 q2 => ?_, fun u hu he q1 q2 => ?_, ?_, fun e q1 q2 => rfl⟩
  · simp [construct_engine, h]
  · simp [construct_engine, hu, he]
  · norm_num [construct_engine]

/-- Witness for C3 (amended): the concrete mapping missing `underlying`
fails construction with the AttributeError. -/
theorem C3_config_loading_witness :
    construct_engine ⟨none, some "24OCT", some 100, some 100, some 1, some 1,
        some 200, some 200, some 50, some 50, some 10, some 0, some 0, []⟩ 25000 0
      = .error "AttributeError: underlying" :=
  (C3_config_loading _).1 rfl 25000 0

/-- C10: zero is treated as absence at initialization.  A quote of exactly 0
counts as no valid sample: if both the initial fetch and the single retry
return 0, construction fails; if the first returns 0 and the retry a nonzero
quote, that quote is used; and a configured start-level override equal to 0
is ignored, the reference defaulting to the observed quote. -/
theorem C10_zero_treated_as_absence (c : RawConfig) (u e : String)
    (hu : c.underlying = some u) (he : c.expiry = some e) :
    construct_engine c 0 0 =
      .error "ConnectionError: Failed to initialize Nifty quote."
    ∧ (∀ q : ℚ, q ≠ 0 → ∀ ps cs : ℚ,
        c.pe_start_point = some ps → c.ce_start_point = some cs →
        construct_engine c 0 q =
          .ok ⟨if ps ≠ 0 then ps else q, if cs ≠ 0 then cs else q, false, false⟩)
    ∧ (∀ q : ℚ, q ≠ 0 →
        c.pe_start_point = some 0 → c.ce_start_point = some 0 →
        construct_engine c q 0 = .ok ⟨q, q, false, false⟩) := by
  refine ⟨?_, fun q hq ps cs hps hcs => ?_, fun q hq hps hcs => ?_⟩
  · simp [construct_engine, hu, he]
  · simp [construct_engine, hu, he, hps, hcs, hq]
  · simp [construct_engine, hu, he, hps, hcs, hq]

/-- Witness for C10: with all keys present and both start overrides
configured to 0, a first sample of 0 retries once (failing only if the retry
is also 0), and a nonzero quote 25000 becomes both reference levels. -/
theorem C10_zero_treated_as_absence_witness :
    construct_engine ⟨some "NIFTY", some "24OCT", some 100, some 100, some 1, some 1,
        some 200, some 200, some 50, some 50, some 10, some 0, some 0, []⟩ 0 0
      = .error "ConnectionError: Failed to initialize Nifty quote."
    ∧ construct_engine ⟨some "NIFTY", some "24OCT", some 100, some 100, some 1, some 1,
        some 200, some 200, some 50, some 50, some 10, some 0, some 0, []⟩ 0 25000
      = .ok ⟨25000, 25000, false, false⟩
    ∧ construct_engine ⟨some "NIFTY", some "24OCT", some 100, some 100, some 1, some 1,
        some 200, some 200, some 50, some 50, some 10, some 0, some 0, []⟩ 25000 0
      = .ok ⟨25000, 25000, false, false⟩ := by
  obtain ⟨h1, h2, h3⟩ := C10_zero_treated_as_absence
    ⟨some "NIFTY", some "24OCT", some 100, some 100, some 1, some 1,
      some 200, some 200, some 50, some 50, some 10, some 0, some 0, []⟩
    "NIFTY" "24OCT" rfl rfl
  refine ⟨h1, ?_, h3 25000 (by norm_num) rfl rfl⟩
  have h := h2 25000 (by norm_num) 0 0 rfl rfl
  simpa using h

end Survivor
